import Mathlib

/-!
Verification of the ImTui interop layer (`library/modules/ImTuiImpl.cpp`).

The development shallowly embeds the input translator (`cleanup_keys`,
`new_frame`), the scan-convert rasterizer (`ScanLine`, `drawTriangle`),
the draw-command interpreter (`draw_frame`), the window-ordering splice
(`imgui_rearrange_internals`) and the session-state operations
(`activate`/`deactivate`, the feed-suppression flags) as executable Lean
functions, and proves the spec's testable properties about them.

Modelling conventions:
* `float` coordinates are modelled as `Rat` (exact arithmetic); all inputs
  exercised by the properties are small dyadic values where `float`
  arithmetic is exact.
* C++ `std::set` values are modelled as duplicate-free `List`s (erasure is
  `filter`, membership is `∈`); `std::map` values as association lists.
* Side effects on the host display are modelled as an explicit write log
  (newest first) over a base screen function; `Screen::readTile` consults
  the log first, exactly as the real display buffer would.
-/

namespace ImTuiModel

/-! ## Input translator (`cleanup_keys` / `new_frame`) -/

/-- Host key events (`df::interface_key`).  The four direction digits are the
keys returned by `Screen::charToKey` on the characters 4/6/8/2; `other` covers
every remaining key code. -/
inductive IKey where
  | d4 | d6 | d8 | d2
  | cursorLeft | cursorRight | cursorUp | cursorDown
  | other (n : Nat)
deriving DecidableEq, Repr

/-- The `to_kill_if_seen` table of `cleanup_keys`: the directional events
erased when the paired digit key (or a live danger timer for it) is seen.
`std::map::operator[]` default-constructs an empty vector for any other key. -/
def to_kill_if_seen (k : IKey) : List IKey :=
  match k with
  | .d4 => [.cursorLeft]
  | .d6 => [.cursorRight]
  | .d8 => [.cursorUp]
  | .d2 => [.cursorDown]
  | _ => []

/-- `danger_key_time[k] = v` on a `std::map` (insert-or-assign). -/
def setTimer (m : List (IKey × Nat)) (k : IKey) (v : Nat) : List (IKey × Nat) :=
  if m.any (fun p => p.1 = k) then
    m.map (fun p => if p.1 = k then (k, v) else p)
  else
    m ++ [(k, v)]

/-- Timer lookup in the danger-key table. -/
def getTimer (m : List (IKey × Nat)) (k : IKey) : Option Nat :=
  (m.find? (fun p => p.1 = k)).map Prod.snd

/-- The fixed suppression window (`int max_suppress_frames = 10`). -/
def max_suppress_frames : Nat := 10

/-- `cleanup_keys` from ImTuiImpl.cpp: for each direction digit present in the
key set, restart its danger timer at 0 and erase the paired cursor event; then,
for every timer still within the suppression window, erase that direction's
cursor event regardless of the digit.  Returns the surviving keys and the
updated timer table (aging happens afterwards, in `new_frame`). -/
def cleanup_keys (keys : List IKey) (danger_key_time : List (IKey × Nat)) :
    List IKey × List (IKey × Nat) :=
  let first := [IKey.d4, IKey.d6, IKey.d8, IKey.d2].foldl
    (fun (acc : List IKey × List (IKey × Nat)) d =>
      if acc.1.contains d then
        (acc.1.filter (fun c => ¬ c ∈ to_kill_if_seen d), setTimer acc.2 d 0)
      else acc)
    (keys, danger_key_time)
  let keys2 := first.2.foldl
    (fun (ks : List IKey) p =>
      if p.2 ≤ max_suppress_frames then
        ks.filter (fun c => ¬ c ∈ to_kill_if_seen p.1)
      else ks)
    first.1
  (keys2, first.2)

/-- The key-translation slice of `ImTuiInterop::impl::new_frame`: run
`cleanup_keys`, then age every danger timer by one.  (The remaining body of
`new_frame` copies the surviving keys into the GUI library's per-frame input
snapshot and carries no further key logic.) -/
def new_frame_keys (keys : List IKey) (danger_key_time : List (IKey × Nat)) :
    List IKey × List (IKey × Nat) :=
  let r := cleanup_keys keys danger_key_time
  (r.1, r.2.map (fun p => (p.1, p.2 + 1)))

/-- The frame sequence of claim C1: `{digit-4, CURSOR_LEFT}` on frame 0 and a
lone `CURSOR_LEFT` on every later frame. -/
def c1Input (n : Nat) : List IKey :=
  if n = 0 then [IKey.d4, IKey.cursorLeft] else [IKey.cursorLeft]

/-- Danger-timer table at the start of frame `n` of the C1 sequence. -/
def c1State : Nat → List (IKey × Nat)
  | 0 => []
  | n + 1 => (new_frame_keys (c1Input n) (c1State n)).2

/-- Translated (surviving) key set on frame `n` of the C1 sequence. -/
def c1Output (n : Nat) : List IKey :=
  (new_frame_keys (c1Input n) (c1State n)).1

/-! ## Scan-convert rasterizer (`ScanLine` / `drawTriangle`) -/

/-- `ImVec2`; `float` components are modelled as `Rat`. -/
@[ext]
structure ImVec2 where
  x : Rat
  y : Rat
deriving DecidableEq, Repr

/-- `ImVec4` (also used for projected clip rectangles). -/
structure ImVec4 where
  x : Rat
  y : Rat
  z : Rat
  w : Rat
deriving DecidableEq, Repr

/-- The data handed to `Screen::paintTile` / `Screen::paintString`: the glyph
and the foreground/background values as passed at the host call boundary. -/
structure Pen where
  tile : Char
  fg : Rat
  bg : Rat
deriving DecidableEq, Repr

/-- `ImGui::ColorConvertU32ToFloat4`: unpack the four bytes of a packed
`ImU32` colour (red in the low byte) and scale each by `1/255`. -/
def colorConvertU32ToFloat4 (c : Nat) : ImVec4 :=
  ⟨((c % 256 : Nat) : Rat) / 255, ((c / 256 % 256 : Nat) : Rat) / 255,
   ((c / 65536 % 256 : Nat) : Rat) / 255, ((c / 16777216 % 256 : Nat) : Rat) / 255⟩

/-- The `ABS` macro. -/
def iabs (x : Int) : Int := if x ≥ 0 then x else -x

/-- The `while (cnt--)` Bresenham walk inside `ScanLine`: visit the current
point (widening the touched row's `[minX, maxX]` interval when the row is in
range), then advance by the secondary or primary step. -/
def scanLoop (dx1 dy1 dx2 dy2 m n ymax : Int) :
    Nat → Int → Int → Int → (Int → Int × Int) → (Int → Int × Int)
  | 0, _, _, _, xrange => xrange
  | cnt + 1, x, y, k, xrange =>
    let xrange2 := if 0 ≤ y ∧ y < ymax then
        (fun y2 => if y2 = y then
            (min (xrange y).1 x, max (xrange y).2 x)
          else xrange y2)
      else xrange
    let k2 := k + n
    if k2 < m then
      scanLoop dx1 dy1 dx2 dy2 m n ymax cnt (x + dx2) (y + dy2) k2 xrange2
    else
      scanLoop dx1 dy1 dx2 dy2 m n ymax cnt (x + dx1) (y + dy1) (k2 - m) xrange2

/-- `ScanLine` from ImTuiImpl.cpp.  The per-row interval buffer
(`xrange[2*y]`, `xrange[2*y+1]` in the C++) is modelled as a function from the
row index to the `(minX, maxX)` pair. -/
def ScanLine (x1 y1 x2 y2 ymax : Int) (xrange : Int → Int × Int) :
    Int → Int × Int :=
  let sx := x2 - x1
  let sy := y2 - y1
  let dx1 : Int := if sx > 0 then 1 else if sx < 0 then -1 else 0
  let dy1 : Int := if sy > 0 then 1 else if sy < 0 then -1 else 0
  let m0 := iabs sx
  let n0 := iabs sy
  let mn : Int × Int × Int × Int :=
    if m0 < n0 then (iabs sy, iabs sx, 0, dy1) else (m0, n0, dx1, 0)
  scanLoop dx1 dy1 mn.2.2.1 mn.2.2.2 mn.1 mn.2.1 ymax
    (mn.1 + 1).toNat x1 y1 (mn.2.1 / 2) xrange

/-- The `while (len--)` cell loop of `drawTriangle`'s paint pass: emit a write
for each cell of the row interval that lies inside the display bounds
(per-cell clipping), skipping out-of-range cells individually. -/
def paintRow (dimX dimY : Int) (pen : Pen) (y : Int) :
    Int → Nat → List ((Int × Int) × Pen)
  | _, 0 => []
  | x, len + 1 =>
    (if 0 ≤ x ∧ x < dimX ∧ 0 ≤ y ∧ y < dimY then [((x, y), pen)] else []) ++
      paintRow dimX dimY pen y (x + 1) len

/-- `drawTriangle` from ImTuiImpl.cpp, returning the ordered list of display
writes it performs (each a cell plus the pen passed to `Screen::paintString`
with the single-space string).  `dimX × dimY` is `Screen::getWindowSize()`. -/
def drawTriangle (dimX dimY : Int) (p0 p1 p2 : ImVec2) (col : Nat) :
    List ((Int × Int) × Pen) :=
  let ymin : Int := (min (min p0.y p1.y) p2.y).floor
  let ymax : Int := (max (max p0.y p1.y) p2.y).floor
  let ydelta : Int := ymax - ymin + 1
  let xrange0 : Int → Int × Int := fun _ => (999999, -999999)
  let q0x := p0.x.floor
  let q1x := p1.x.floor
  let q2x := p2.x.floor
  let q0y := p0.y.floor
  let q1y := p1.y.floor
  let q2y := p2.y.floor
  let xr := ScanLine q0x (q0y - ymin) q1x (q1y - ymin) ydelta xrange0
  let xr2 := ScanLine q1x (q1y - ymin) q2x (q2y - ymin) ydelta xr
  let xr3 := ScanLine q2x (q2y - ymin) q0x (q0y - ymin) ydelta xr2
  let col4 := colorConvertU32ToFloat4 col
  let pen : Pen := ⟨' ', col4.x, col4.y⟩
  (List.range ydelta.toNat).flatMap (fun yn =>
    let y : Int := yn
    if (xr3 y).2 ≥ (xr3 y).1 then
      paintRow dimX dimY pen (y + ymin) (xr3 y).1 (1 + (xr3 y).2 - (xr3 y).1).toNat
    else [])

/-- The cells painted for the C4 triangle (0,0), (4,0), (0,4) on an 80×25
display. -/
def c4Cells : List (Int × Int) :=
  (drawTriangle 80 25 ⟨0, 0⟩ ⟨4, 0⟩ ⟨0, 4⟩ 0).map (fun w => w.1)

/-! ## Draw-command interpreter (`draw_frame`) -/

/-- One entry of the GUI library's vertex buffer (`ImDrawVert` with ImTui's
glyph payload `chrs`).  `chrs` holds the payload characters up to the first
NUL, as extracted by the `strlen`-bounded `std::string` construction. -/
structure ImDrawVert where
  pos : ImVec2
  uv : ImVec2
  col : Nat
  chrs : List Char
deriving DecidableEq, Repr

/-- The vertex read for an index beyond the vertex buffer (the C++ would index
out of range; the GUI library never emits such data). -/
def defaultVert : ImDrawVert := ⟨⟨0, 0⟩, ⟨0, 0⟩, 0, []⟩

/-- `cmd_list->VtxBuffer[i]`. -/
def vAt (vtx : List ImDrawVert) (i : Nat) : ImDrawVert :=
  vtx.getD i defaultVert

/-- Whether a display cell passes the glyph-path clip-rectangle test of
`draw_frame` (the negation of its skip condition). -/
def cellInClip (clip : ImVec4) (c : Int × Int) : Prop :=
  ¬ ((c.1 : Rat) < clip.x ∨ (c.1 : Rat) ≥ clip.z ∨
     (c.2 : Rat) < clip.y ∨ (c.2 : Rat) ≥ clip.w)

/-- One `ImDrawCmd`: its unprojected clip rectangle and index range. -/
structure ImDrawCmd where
  clipRect : ImVec4
  elemCount : Nat
  idxOffset : Nat
deriving Repr

/-- One `ImDrawList`: command buffer, index buffer and vertex buffer. -/
structure ImDrawList where
  cmdBuffer : List ImDrawCmd
  idxBuffer : List Nat
  vtxBuffer : List ImDrawVert
deriving Repr

/-- `ImDrawData` as read by `draw_frame`. -/
structure ImDrawData where
  displaySize : ImVec2
  framebufferScale : ImVec2
  displayPos : ImVec2
  cmdLists : List ImDrawList
deriving Repr

/-- Host display state: `Screen::getWindowSize()`, the log of cell writes in
this pass (newest first) and the pre-existing screen content. -/
structure ScreenState where
  dimX : Int
  dimY : Int
  writes : List ((Int × Int) × Pen)
  base : Int → Int → Pen

/-- `Screen::readTile`: the most recent write to the cell, or the
pre-existing content. -/
def readTile (scr : ScreenState) (x y : Int) : Pen :=
  match scr.writes.find? (fun w => w.1 = (x, y)) with
  | some w => w.2
  | none => scr.base x y

/-- `Screen::paintTile`: record a cell write. -/
def paintTile (scr : ScreenState) (pen : Pen) (x y : Int) : ScreenState :=
  { scr with writes := ((x, y), pen) :: scr.writes }

/-- Perform one `drawTriangle` call against the screen state, logging its
writes in order. -/
def drawTriangleS (scr : ScreenState) (p0 p1 p2 : ImVec2) (col : Nat) :
    ScreenState :=
  { scr with writes :=
      (drawTriangle scr.dimX scr.dimY p0 p1 p2 col).reverse ++ scr.writes }

/-- The glyph paint block of `draw_frame` (lines painting an in-clip glyph
cell).  The host text conversion is the parameter `utf2df`.  Modelled from the
spec: `UTF2DF` (declared in MiscUtils.h, outside this translation unit) is the
host's multi-byte-to-host-encoding conversion returning a variable-length
string — exactly one unit on success. -/
def paintGlyph (utf2df : List Char → List Char) (scr : ScreenState)
    (xx yy : Int) (payload : List Char) (col : Nat) : ScreenState :=
  let col4 := colorConvertU32ToFloat4 col
  let current_bg := readTile scr xx yy
  let as_df := utf2df payload
  if as_df.length = 1 then
    paintTile scr ⟨as_df.headD '?', col4.x, current_bg.bg⟩ xx yy
  else
    paintTile scr ⟨'?', col4.x, current_bg.bg⟩ xx yy

/-- The overlapping-glyph nudge of `draw_frame`: when the computed position is
strictly within half a unit of the previous glyph position on both axes, place
the glyph one column to the right of the previous glyph instead. -/
def glyphXY (lastX lastY x y : Rat) : Rat × Rat :=
  if |y - lastY| < 1/2 ∧ |x - lastX| < 1/2 then (lastX + 1, lastY) else (x, y)

/-- Record of one glyph primitive processed by the walk: the previous glyph
position, the raw averaged position, the placed position, the target cell and
whether the clip rectangle rejected it. -/
structure GlyphEv where
  prevX : Rat
  prevY : Rat
  rawX : Rat
  rawY : Rat
  x : Rat
  y : Rat
  cell : Int × Int
  clipped : Bool
deriving DecidableEq, Repr

/-- Events of the triangle walk: a call into the fill rasterizer
(`drawTriangle`) or a glyph primitive. -/
inductive DrawEvent where
  | fill (p0 p1 p2 : ImVec2) (col : Nat)
  | glyph (g : GlyphEv)
deriving DecidableEq, Repr

/-- One glyph primitive of the walk: average the six vertex positions (with
the `+0.5` row bias), apply the nudge, floor to the target cell, and — unless
the cell falls outside the clip rectangle — paint it via `paintGlyph` with the
first vertex's payload and colour. -/
def glyphStep (utf2df : List Char → List Char) (vtx : List ImDrawVert)
    (clip : ImVec4) (i0 i1 i2 j0 j1 j2 : Nat) (lastX lastY : Rat)
    (scr : ScreenState) : GlyphEv × ScreenState :=
  let v0 := vAt vtx i0
  let v1 := vAt vtx i1
  let v2 := vAt vtx i2
  let w0 := vAt vtx j0
  let w1 := vAt vtx j1
  let w2 := vAt vtx j2
  let rawX := (v0.pos.x + v1.pos.x + v2.pos.x + w0.pos.x + w1.pos.x + w2.pos.x) / 6
  let rawY := (v0.pos.y + v1.pos.y + v2.pos.y + w0.pos.y + w1.pos.y + w2.pos.y) / 6
    + 1/2
  let xy := glyphXY lastX lastY rawX rawY
  let xx : Int := xy.1.floor
  let yy : Int := xy.2.floor
  if (xx : Rat) < clip.x ∨ (xx : Rat) ≥ clip.z ∨
      (yy : Rat) < clip.y ∨ (yy : Rat) ≥ clip.w then
    (⟨lastX, lastY, rawX, rawY, xy.1, xy.2, (xx, yy), true⟩, scr)
  else
    (⟨lastX, lastY, rawX, rawY, xy.1, xy.2, (xx, yy), false⟩,
     paintGlyph utf2df scr xx yy v0.chrs v0.col)

/-- The triangle walk of `draw_frame` over one draw command: three indices per
step; a triangle whose three texture coordinates are not all pairwise equal is
a glyph primitive (consuming the next three indices as well), otherwise the
triangle goes to the fill rasterizer.  `fuel` bounds the iteration count (the
index-list length suffices); fewer than three remaining indices end the walk
(the GUI library only emits whole triangles). -/
def walkCmd (utf2df : List Char → List Char) (vtx : List ImDrawVert)
    (clip : ImVec4) :
    Nat → List Nat → Rat → Rat → ScreenState → ScreenState × List DrawEvent
  | 0, _, _, _, scr => (scr, [])
  | _ + 1, [], _, _, scr => (scr, [])
  | _ + 1, [_], _, _, scr => (scr, [])
  | _ + 1, [_, _], _, _, scr => (scr, [])
  | fuel + 1, i0 :: i1 :: i2 :: rest, lastX, lastY, scr =>
    let v0 := vAt vtx i0
    let v1 := vAt vtx i1
    let v2 := vAt vtx i2
    if v0.uv.x ≠ v1.uv.x ∨ v0.uv.x ≠ v2.uv.x ∨ v1.uv.x ≠ v2.uv.x ∨
        v0.uv.y ≠ v1.uv.y ∨ v0.uv.y ≠ v2.uv.y ∨ v1.uv.y ≠ v2.uv.y then
      let gs := glyphStep utf2df vtx clip i0 i1 i2
        (rest.getD 0 0) (rest.getD 1 0) (rest.getD 2 0) lastX lastY scr
      let r := walkCmd utf2df vtx clip fuel (rest.drop 3) gs.1.x gs.1.y gs.2
      (r.1, .glyph gs.1 :: r.2)
    else
      let scr2 := drawTriangleS scr v0.pos v1.pos v2.pos v0.col
      let r := walkCmd utf2df vtx clip fuel rest lastX lastY scr2
      (r.1, .fill v0.pos v1.pos v2.pos v0.col :: r.2)

/-- C-style truncation toward zero (the `(int)` casts of `draw_frame`). -/
def ratTrunc (q : Rat) : Int := q.num.tdiv q.den

/-- One draw command of `draw_frame`: project the clip rectangle into
framebuffer space, skip the command when the rectangle misses the visible
framebuffer, otherwise walk its index range with the per-command
`lastChar` position reset to `-10000`. -/
def runCmd (utf2df : List Char → List Char) (cl : ImDrawList)
    (fbWidth fbHeight : Int) (clipOff clipScale : ImVec2)
    (scr : ScreenState) (cmd : ImDrawCmd) : ScreenState × List DrawEvent :=
  let clip : ImVec4 :=
    ⟨(cmd.clipRect.x - clipOff.x) * clipScale.x,
     (cmd.clipRect.y - clipOff.y) * clipScale.y,
     (cmd.clipRect.z - clipOff.x) * clipScale.x,
     (cmd.clipRect.w - clipOff.y) * clipScale.y⟩
  if clip.x < (fbWidth : Rat) ∧ clip.y < (fbHeight : Rat) ∧
      clip.z ≥ 0 ∧ clip.w ≥ 0 then
    let idxs := (cl.idxBuffer.drop cmd.idxOffset).take cmd.elemCount
    walkCmd utf2df cl.vtxBuffer clip idxs.length idxs (-10000) (-10000) scr
  else (scr, [])

/-- `ImTuiInterop::impl::draw_frame`: bail out on a non-positive framebuffer,
then process every command of every command list in order, accumulating
display writes and draw events. -/
def draw_frame (utf2df : List Char → List Char) (drawData : ImDrawData)
    (scr : ScreenState) : ScreenState × List DrawEvent :=
  let fbWidth := ratTrunc (drawData.displaySize.x * drawData.framebufferScale.x)
  let fbHeight := ratTrunc (drawData.displaySize.y * drawData.framebufferScale.y)
  if fbWidth ≤ 0 ∨ fbHeight ≤ 0 then (scr, [])
  else
    drawData.cmdLists.foldl
      (fun (acc : ScreenState × List DrawEvent) cl =>
        cl.cmdBuffer.foldl
          (fun (acc2 : ScreenState × List DrawEvent) cmd =>
            let r := runCmd utf2df cl fbWidth fbHeight drawData.displayPos
              drawData.framebufferScale acc2.1 cmd
            (r.1, acc2.2 ++ r.2))
          acc)
      (scr, [])


/-! ## Concrete draw data used by the counterexamples and witnesses -/

/-- An identity host text conversion (a concrete `utf2df` instance). -/
def u2dId : List Char → List Char := fun s => s

/-- A 20×20 display whose cells all start as a space, foreground 7,
background 0. -/
def scr20 : ScreenState := ⟨20, 20, [], fun _ _ => ⟨' ', 7, 0⟩⟩

/-- Six vertices (two consecutive triangles) that all share the texture
coordinate (0,0). -/
def c2Verts : List ImDrawVert :=
  [⟨⟨0, 0⟩, ⟨0, 0⟩, 7, []⟩, ⟨⟨2, 0⟩, ⟨0, 0⟩, 7, []⟩, ⟨⟨2, 1⟩, ⟨0, 0⟩, 7, []⟩,
   ⟨⟨2, 1⟩, ⟨0, 0⟩, 7, []⟩, ⟨⟨0, 1⟩, ⟨0, 0⟩, 7, []⟩, ⟨⟨0, 0⟩, ⟨0, 0⟩, 7, []⟩]

/-- One command drawing the two `c2Verts` triangles with a full-screen clip
rectangle. -/
def c2Data : ImDrawData :=
  ⟨⟨20, 20⟩, ⟨1, 1⟩, ⟨0, 0⟩,
   [⟨[⟨⟨0, 0, 20, 20⟩, 6, 0⟩], [0, 1, 2, 3, 4, 5], c2Verts⟩]⟩

/-- A solid-fill triangle at cells (5..8, 5..8), texture coordinates all
equal. -/
def c3Verts : List ImDrawVert :=
  [⟨⟨5, 5⟩, ⟨0, 0⟩, 0, []⟩, ⟨⟨8, 5⟩, ⟨0, 0⟩, 0, []⟩, ⟨⟨5, 8⟩, ⟨0, 0⟩, 0, []⟩]

/-- One command whose clip rectangle is the single cell (0,0)–(1,1) but whose
fill triangle lies wholly outside it. -/
def c3Data : ImDrawData :=
  ⟨⟨20, 20⟩, ⟨1, 1⟩, ⟨0, 0⟩, [⟨[⟨⟨0, 0, 1, 1⟩, 3, 0⟩], [0, 1, 2], c3Verts⟩]⟩

/-- Two glyph primitives (first triangle of each has non-equal texture
coordinates): the first centred at x = 0, the second at x = 3/4 — three
quarters of a cell to the right. -/
def c6Verts : List ImDrawVert :=
  [⟨⟨0, 0⟩, ⟨0, 0⟩, 255, ['a']⟩, ⟨⟨0, 0⟩, ⟨1, 0⟩, 255, ['a']⟩,
   ⟨⟨0, 0⟩, ⟨1, 1⟩, 255, ['a']⟩, ⟨⟨0, 0⟩, ⟨0, 0⟩, 255, ['a']⟩,
   ⟨⟨0, 0⟩, ⟨0, 0⟩, 255, ['a']⟩, ⟨⟨0, 0⟩, ⟨0, 0⟩, 255, ['a']⟩,
   ⟨⟨3/4, 0⟩, ⟨0, 0⟩, 255, ['b']⟩, ⟨⟨3/4, 0⟩, ⟨1, 0⟩, 255, ['b']⟩,
   ⟨⟨3/4, 0⟩, ⟨1, 1⟩, 255, ['b']⟩, ⟨⟨3/4, 0⟩, ⟨0, 0⟩, 255, ['b']⟩,
   ⟨⟨3/4, 0⟩, ⟨0, 0⟩, 255, ['b']⟩, ⟨⟨3/4, 0⟩, ⟨0, 0⟩, 255, ['b']⟩]

/-- One command drawing the two `c6Verts` glyph primitives. -/
def c6Data : ImDrawData :=
  ⟨⟨20, 20⟩, ⟨1, 1⟩, ⟨0, 0⟩,
   [⟨[⟨⟨0, 0, 20, 20⟩, 12, 0⟩], [0, 1, 2, 3, 4, 5, 6, 7, 8, 9, 10, 11],
     c6Verts⟩]⟩

/-- The first glyph event produced on `c6Data`. -/
def c6G1 : GlyphEv := ⟨-10000, -10000, 0, 1/2, 0, 1/2, (0, 0), false⟩

/-- The second glyph event produced on `c6Data`: its raw position (3/4, 1/2)
is within one unit — but not within half a unit — of the first glyph, so the
code leaves it unnudged. -/
def c6G2 : GlyphEv := ⟨0, 1/2, 3/4, 1/2, 3/4, 1/2, (0, 0), false⟩

/-! ## Window ordering reconciler (`imgui_rearrange_internals`) -/

/-- `imgui_rearrange_internals`: rebuild the context's global display-order
and focus-order window lists by first pushing every window *not* in the
reordered subset, in its original order, and then pushing the subset's
windows; the back of each list is the front (paint-nearest / focus-nearest)
end.  Windows are identified by name. -/
def imgui_rearrange_internals (ctxWindows ctxFocus : List String)
    (display_order focus_order : List String) : List String × List String :=
  let finished_display := display_order.foldl (fun acc w => acc ++ [w])
    (ctxWindows.foldl
      (fun acc w => if w ∈ display_order then acc else acc ++ [w]) [])
  let finished_focus := focus_order.foldl (fun acc w => acc ++ [w])
    (ctxFocus.foldl
      (fun acc w => if w ∈ focus_order then acc else acc ++ [w]) [])
  (finished_display, finished_focus)

/-! ## UI session state (`activate` / `deactivate`, feed suppression) -/

/-- The context bookkeeping of `ui_state`: the session's own GUI context and
the saved previously-current context (either may be null). -/
structure UiCtxState where
  ctx : Option Nat
  last_context : Option Nat
deriving DecidableEq, Repr

/-- `ui_state::activate`: remember the currently-current context in
`last_context` and make the session's own context current.  Returns the new
current context and the updated state. -/
def activate (current : Option Nat) (st : UiCtxState) :
    Option Nat × UiCtxState :=
  (st.ctx, { st with last_context := current })

/-- `ui_state::deactivate`: make the remembered context current again. -/
def deactivate (current : Option Nat) (st : UiCtxState) :
    Option Nat × UiCtxState :=
  (st.last_context, st)

/-- The feed-related fields of `ui_state` used by the `viewscreen`
entry points. -/
structure FeedState where
  suppress_next_keyboard_passthrough : Bool
  should_pass_keyboard_up : Bool
  suppressed_keys : List (Int × List IKey)
  pressed_mouse_keys : Bool × Bool

/-- `viewscreen::suppress_next_keyboard_feed_upwards`. -/
def suppress_next_keyboard_feed_upwards (st : FeedState) : FeedState :=
  { st with suppress_next_keyboard_passthrough := true }

/-- `viewscreen::suppress_next_mouse_feed_upwards` — its body sets the same
keyboard-passthrough flag. -/
def suppress_next_mouse_feed_upwards (st : FeedState) : FeedState :=
  { st with suppress_next_keyboard_passthrough := true }

/-- `viewscreen::feed_upwards`. -/
def feed_upwards (st : FeedState) : FeedState :=
  { st with should_pass_keyboard_up := true }

/-- `viewscreen::on_feed_end`: propagate keys upward only when requested, not
suppressed, keys are present, and no declared-suppressed key is in the set;
always clear both flags. -/
def on_feed_end (keys : Option (List IKey)) (st : FeedState) :
    Bool × FeedState :=
  let should_feed :=
    match keys with
    | some ks =>
      if st.should_pass_keyboard_up && !st.suppress_next_keyboard_passthrough
      then
        !(st.suppressed_keys.any (fun e => e.2.any (fun k => ks.contains k)))
      else false
    | none => false
  (should_feed,
   { st with suppress_next_keyboard_passthrough := false,
             should_pass_keyboard_up := false })

/-! ## Theorems -/

lemma new_frame_keys_lone_cursor (k : Nat) :
    new_frame_keys [IKey.cursorLeft] [(IKey.d4, k)] =
      (if k ≤ 10 then [] else [IKey.cursorLeft], [(IKey.d4, k + 1)]) := by
  unfold new_frame_keys cleanup_keys
  by_cases h : k ≤ 10 <;>
    simp [h, max_suppress_frames, to_kill_if_seen, setTimer]

lemma c1_state_succ (n : Nat) : c1State (n + 1) = [(IKey.d4, n + 1)] := by
  induction n with
  | zero => decide
  | succ m ih =>
      show (new_frame_keys (c1Input (m + 1)) (c1State (m + 1))).2 = _
      rw [ih, show c1Input (m + 1) = [IKey.cursorLeft] from rfl,
        new_frame_keys_lone_cursor]

lemma c1_output_ge11 (n : Nat) (h : 11 ≤ n) : c1Output n = [IKey.cursorLeft] := by
  obtain ⟨m, rfl⟩ : ∃ m, n = m + 1 := ⟨n - 1, by omega⟩
  unfold c1Output
  rw [c1_state_succ, show c1Input (m + 1) = [IKey.cursorLeft] from rfl,
    new_frame_keys_lone_cursor]
  simp only [if_neg (by omega : ¬ m + 1 ≤ 10)]

/-- C1: for the frame sequence feeding `{digit-4, CURSOR_LEFT}` on frame 0 and
a lone `CURSOR_LEFT` afterwards, the frame-0 output contains digit-4 but not
CURSOR_LEFT and the left danger timer is 0 right after the cleanup pass; on
frames 1 through 9 CURSOR_LEFT is suppressed; on every frame from 11 on it
passes through. -/
theorem c1_directional_suppression :
    (IKey.d4 ∈ c1Output 0 ∧ IKey.cursorLeft ∉ c1Output 0) ∧
    getTimer (cleanup_keys (c1Input 0) (c1State 0)).2 IKey.d4 = some 0 ∧
    (∀ n : Nat, 1 ≤ n → n ≤ 9 → IKey.cursorLeft ∉ c1Output n) ∧
    (∀ n : Nat, 11 ≤ n → IKey.cursorLeft ∈ c1Output n) := by
  refine ⟨by decide, by decide, ?_, ?_⟩
  · intro n h1 h9
    interval_cases n <;> decide
  · intro n h
    rw [c1_output_ge11 n h]
    exact List.mem_singleton.mpr rfl

/-- Witness for C1 at frames 5 and 11. -/
theorem c1_directional_suppression_witness :
    IKey.cursorLeft ∉ c1Output 5 ∧ IKey.cursorLeft ∈ c1Output 11 :=
  ⟨c1_directional_suppression.2.2.1 5 (by decide) (by decide),
   c1_directional_suppression.2.2.2 11 (by decide)⟩

set_option maxHeartbeats 2000000 in
unseal Rat.mul Rat.inv Rat.add Rat.sub in
/-- C4: filling the triangle (0,0), (4,0), (0,4) paints exactly the 15 cells
with `x + y ≤ 4`, `x ≥ 0`, `y ≥ 0`, and each rotation of the three vertices
produces the identical write list. -/
theorem triangle_fill_rotation_invariant :
    (∀ x y : Int, (x, y) ∈ c4Cells ↔ 0 ≤ x ∧ 0 ≤ y ∧ x + y ≤ 4) ∧
    c4Cells.length = 15 ∧ c4Cells.Nodup ∧
    drawTriangle 80 25 ⟨4, 0⟩ ⟨0, 4⟩ ⟨0, 0⟩ 0 =
      drawTriangle 80 25 ⟨0, 0⟩ ⟨4, 0⟩ ⟨0, 4⟩ 0 ∧
    drawTriangle 80 25 ⟨0, 4⟩ ⟨0, 0⟩ ⟨4, 0⟩ 0 =
      drawTriangle 80 25 ⟨0, 0⟩ ⟨4, 0⟩ ⟨0, 4⟩ 0 := by
  refine ⟨?_, by decide, by decide, by decide, by decide⟩
  intro x y
  have h : c4Cells = [(0, 0), (1, 0), (2, 0), (3, 0), (4, 0),
      (0, 1), (1, 1), (2, 1), (3, 1), (0, 2), (1, 2), (2, 2),
      (0, 3), (1, 3), (0, 4)] := by decide
  rw [h]
  simp only [List.mem_cons, List.not_mem_nil, or_false, Prod.mk.injEq]
  omega

lemma paintRow_bounds (dimX dimY : Int) (pen : Pen) (y : Int) :
    ∀ (x : Int) (len : Nat), ∀ w ∈ paintRow dimX dimY pen y x len,
      0 ≤ w.1.1 ∧ w.1.1 < dimX ∧ 0 ≤ w.1.2 ∧ w.1.2 < dimY := by
  intro x len
  induction len generalizing x with
  | zero => intro w hw; simp [paintRow] at hw
  | succ n ih =>
      intro w hw
      simp only [paintRow, List.mem_append] at hw
      rcases hw with hw | hw
      · split at hw
        · rename_i h
          simp only [List.mem_singleton] at hw
          subst hw
          exact ⟨h.1, h.2.1, h.2.2.1, h.2.2.2⟩
        · simp at hw
      · exact ih (x + 1) w hw

/-- C8: `drawTriangle` never emits a write outside the display bounds — every
candidate cell is tested individually against `0 ≤ x < dimX`, `0 ≤ y < dimY`
and skipped if out of range. -/
theorem fill_per_cell_clipping (dimX dimY : Int) (p0 p1 p2 : ImVec2)
    (col : Nat) :
    ∀ w ∈ drawTriangle dimX dimY p0 p1 p2 col,
      0 ≤ w.1.1 ∧ w.1.1 < dimX ∧ 0 ≤ w.1.2 ∧ w.1.2 < dimY := by
  intro w hw
  simp only [drawTriangle, List.mem_flatMap] at hw
  obtain ⟨yn, _, hw⟩ := hw
  split at hw
  · exact paintRow_bounds _ _ _ _ _ _ w hw
  · simp at hw

set_option maxHeartbeats 1000000 in
unseal Rat.mul Rat.inv Rat.add Rat.sub in
/-- Witness for C8 on a concrete in-bounds triangle write. -/
theorem fill_per_cell_clipping_witness :
    0 ≤ (0 : Int) ∧ (0 : Int) < 10 ∧ 0 ≤ (0 : Int) ∧ (0 : Int) < 10 :=
  fill_per_cell_clipping 10 10 ⟨0, 0⟩ ⟨2, 0⟩ ⟨0, 2⟩ 0
    ((0, 0), ⟨' ', 0, 0⟩) (by decide)

lemma walkCmd_fill_step (utf2df : List Char → List Char)
    (vtx : List ImDrawVert) (clip : ImVec4) (fuel : Nat) (i0 i1 i2 : Nat)
    (rest : List Nat) (lastX lastY : Rat) (scr : ScreenState)
    (h1 : (vAt vtx i0).uv = (vAt vtx i1).uv)
    (h2 : (vAt vtx i0).uv = (vAt vtx i2).uv) :
    walkCmd utf2df vtx clip (fuel + 1) (i0 :: i1 :: i2 :: rest) lastX lastY
        scr =
      ((walkCmd utf2df vtx clip fuel rest lastX lastY
          (drawTriangleS scr (vAt vtx i0).pos (vAt vtx i1).pos
            (vAt vtx i2).pos (vAt vtx i0).col)).1,
       DrawEvent.fill (vAt vtx i0).pos (vAt vtx i1).pos (vAt vtx i2).pos
           (vAt vtx i0).col ::
         (walkCmd utf2df vtx clip fuel rest lastX lastY
           (drawTriangleS scr (vAt vtx i0).pos (vAt vtx i1).pos
             (vAt vtx i2).pos (vAt vtx i0).col)).2) := by
  have hcond : ¬ ((vAt vtx i0).uv.x ≠ (vAt vtx i1).uv.x ∨
      (vAt vtx i0).uv.x ≠ (vAt vtx i2).uv.x ∨
      (vAt vtx i1).uv.x ≠ (vAt vtx i2).uv.x ∨
      (vAt vtx i0).uv.y ≠ (vAt vtx i1).uv.y ∨
      (vAt vtx i0).uv.y ≠ (vAt vtx i2).uv.y ∨
      (vAt vtx i1).uv.y ≠ (vAt vtx i2).uv.y) := by
    push_neg
    simp [← h1, ← h2]
  simp only [walkCmd, if_neg hcond]

lemma walkCmd_glyph_step (utf2df : List Char → List Char)
    (vtx : List ImDrawVert) (clip : ImVec4) (fuel : Nat) (i0 i1 i2 : Nat)
    (rest : List Nat) (lastX lastY : Rat) (scr : ScreenState)
    (h : ¬ ((vAt vtx i0).uv = (vAt vtx i1).uv ∧
            (vAt vtx i0).uv = (vAt vtx i2).uv)) :
    walkCmd utf2df vtx clip (fuel + 1) (i0 :: i1 :: i2 :: rest) lastX lastY
        scr =
      ((walkCmd utf2df vtx clip fuel (rest.drop 3)
          (glyphStep utf2df vtx clip i0 i1 i2 (rest.getD 0 0) (rest.getD 1 0)
            (rest.getD 2 0) lastX lastY scr).1.x
          (glyphStep utf2df vtx clip i0 i1 i2 (rest.getD 0 0) (rest.getD 1 0)
            (rest.getD 2 0) lastX lastY scr).1.y
          (glyphStep utf2df vtx clip i0 i1 i2 (rest.getD 0 0) (rest.getD 1 0)
            (rest.getD 2 0) lastX lastY scr).2).1,
       DrawEvent.glyph
           (glyphStep utf2df vtx clip i0 i1 i2 (rest.getD 0 0) (rest.getD 1 0)
             (rest.getD 2 0) lastX lastY scr).1 ::
         (walkCmd utf2df vtx clip fuel (rest.drop 3)
           (glyphStep utf2df vtx clip i0 i1 i2 (rest.getD 0 0) (rest.getD 1 0)
             (rest.getD 2 0) lastX lastY scr).1.x
           (glyphStep utf2df vtx clip i0 i1 i2 (rest.getD 0 0) (rest.getD 1 0)
             (rest.getD 2 0) lastX lastY scr).1.y
           (glyphStep utf2df vtx clip i0 i1 i2 (rest.getD 0 0) (rest.getD 1 0)
             (rest.getD 2 0) lastX lastY scr).2).2) := by
  have hcond : (vAt vtx i0).uv.x ≠ (vAt vtx i1).uv.x ∨
      (vAt vtx i0).uv.x ≠ (vAt vtx i2).uv.x ∨
      (vAt vtx i1).uv.x ≠ (vAt vtx i2).uv.x ∨
      (vAt vtx i0).uv.y ≠ (vAt vtx i1).uv.y ∨
      (vAt vtx i0).uv.y ≠ (vAt vtx i2).uv.y ∨
      (vAt vtx i1).uv.y ≠ (vAt vtx i2).uv.y := by
    by_contra hc
    push_neg at hc
    exact h ⟨ImVec2.ext hc.1 hc.2.2.2.1, ImVec2.ext hc.2.1 hc.2.2.2.2.1⟩
  simp only [walkCmd, if_pos hcond]

/-- C2 (amended): in the triangle walk, a pair of consecutive triangles whose
six vertices all share one texture coordinate is classified as two solid-fill
primitives — both are passed to the fill rasterizer `drawTriangle` and no
glyph primitive is emitted for them — whereas a triangle whose three texture
coordinates are not all pairwise equal is classified as a glyph primitive
paired with the next three indices and is never passed to the fill
rasterizer. -/
theorem triangle_classification (utf2df : List Char → List Char)
    (vtx : List ImDrawVert) (clip : ImVec4) (fuel : Nat)
    (i0 i1 i2 i3 i4 i5 : Nat) (rest : List Nat) (lastX lastY : Rat)
    (scr : ScreenState) :
    ((∀ a ∈ [i1, i2, i3, i4, i5], (vAt vtx a).uv = (vAt vtx i0).uv) →
      walkCmd utf2df vtx clip (fuel + 1 + 1)
          (i0 :: i1 :: i2 :: i3 :: i4 :: i5 :: rest) lastX lastY scr =
        ((walkCmd utf2df vtx clip fuel rest lastX lastY
            (drawTriangleS
              (drawTriangleS scr (vAt vtx i0).pos (vAt vtx i1).pos
                (vAt vtx i2).pos (vAt vtx i0).col)
              (vAt vtx i3).pos (vAt vtx i4).pos (vAt vtx i5).pos
              (vAt vtx i3).col)).1,
         DrawEvent.fill (vAt vtx i0).pos (vAt vtx i1).pos (vAt vtx i2).pos
             (vAt vtx i0).col ::
           DrawEvent.fill (vAt vtx i3).pos (vAt vtx i4).pos (vAt vtx i5).pos
             (vAt vtx i3).col ::
           (walkCmd utf2df vtx clip fuel rest lastX lastY
             (drawTriangleS
               (drawTriangleS scr (vAt vtx i0).pos (vAt vtx i1).pos
                 (vAt vtx i2).pos (vAt vtx i0).col)
               (vAt vtx i3).pos (vAt vtx i4).pos (vAt vtx i5).pos
               (vAt vtx i3).col)).2)) ∧
    (¬ ((vAt vtx i0).uv = (vAt vtx i1).uv ∧
        (vAt vtx i0).uv = (vAt vtx i2).uv) →
      (walkCmd utf2df vtx clip (fuel + 1) (i0 :: i1 :: i2 :: rest) lastX lastY
          scr).2 =
        DrawEvent.glyph
            (glyphStep utf2df vtx clip i0 i1 i2 (rest.getD 0 0)
              (rest.getD 1 0) (rest.getD 2 0) lastX lastY scr).1 ::
          (walkCmd utf2df vtx clip fuel (rest.drop 3)
            (glyphStep utf2df vtx clip i0 i1 i2 (rest.getD 0 0)
              (rest.getD 1 0) (rest.getD 2 0) lastX lastY scr).1.x
            (glyphStep utf2df vtx clip i0 i1 i2 (rest.getD 0 0)
              (rest.getD 1 0) (rest.getD 2 0) lastX lastY scr).1.y
            (glyphStep utf2df vtx clip i0 i1 i2 (rest.getD 0 0)
              (rest.getD 1 0) (rest.getD 2 0) lastX lastY scr).2).2) := by
  constructor
  · intro h
    have e1 : (vAt vtx i0).uv = (vAt vtx i1).uv := (h i1 (by simp)).symm
    have e2 : (vAt vtx i0).uv = (vAt vtx i2).uv := (h i2 (by simp)).symm
    have e3 : (vAt vtx i3).uv = (vAt vtx i4).uv := by
      rw [h i3 (by simp), h i4 (by simp)]
    have e4 : (vAt vtx i3).uv = (vAt vtx i5).uv := by
      rw [h i3 (by simp), h i5 (by simp)]
    rw [walkCmd_fill_step utf2df vtx clip (fuel + 1) i0 i1 i2
        (i3 :: i4 :: i5 :: rest) lastX lastY scr e1 e2,
      walkCmd_fill_step utf2df vtx clip fuel i3 i4 i5 rest lastX lastY _
        e3 e4]
  · intro h
    rw [walkCmd_glyph_step utf2df vtx clip fuel i0 i1 i2 rest lastX lastY
      scr h]

unseal Rat.mul Rat.inv Rat.add Rat.sub in
/-- C2 counterexample: on `c2Data` — two consecutive triangles whose six
vertices all share the texture coordinate (0,0) — the interpreter passes both
triangles to the fill rasterizer and emits no glyph primitive, contradicting
the claim that such a pair is classified as a glyph primitive and never
rasterized as fill. -/
theorem triangle_classification_cex :
    (draw_frame u2dId c2Data scr20).2 =
      [DrawEvent.fill ⟨0, 0⟩ ⟨2, 0⟩ ⟨2, 1⟩ 7,
       DrawEvent.fill ⟨2, 1⟩ ⟨0, 1⟩ ⟨0, 0⟩ 7] := by
  decide

unseal Rat.mul Rat.inv Rat.add Rat.sub in
/-- Witness for C2 on the concrete all-equal-uv pair `c2Verts`. -/
theorem triangle_classification_witness :
    (walkCmd u2dId c2Verts ⟨0, 0, 20, 20⟩ (0 + 1 + 1) [0, 1, 2, 3, 4, 5]
        (-10000) (-10000) scr20).2 =
      [DrawEvent.fill ⟨0, 0⟩ ⟨2, 0⟩ ⟨2, 1⟩ 7,
       DrawEvent.fill ⟨2, 1⟩ ⟨0, 1⟩ ⟨0, 0⟩ 7] := by
  have h := (triangle_classification u2dId c2Verts ⟨0, 0, 20, 20⟩ 0
    0 1 2 3 4 5 [] (-10000) (-10000) scr20).1 (by decide)
  rw [h]
  decide

unseal Rat.mul Rat.inv Rat.add Rat.sub in
/-- C3: on `c3Data` the command clip rectangle covers only the cell (0,0),
yet the solid-fill triangle at cells (5..8, 5..8) produces 10 display writes,
among them cell (5,5), which lies outside the clip rectangle — `draw_frame`
calls `drawTriangle` without the clip rectangle (the code carries the comment
`todo: pass in clip rect`), so fill primitives are clipped only against the
display, contradicting the claim that no cell outside the clip rectangle is
written. -/
theorem fill_ignores_clip_rect :
    ((draw_frame u2dId c3Data scr20).1.writes.map (fun w => w.1)).contains
        (5, 5) = true ∧
    ¬ cellInClip ⟨0, 0, 1, 1⟩ (5, 5) ∧
    (draw_frame u2dId c3Data scr20).1.writes.length = 10 := by
  refine ⟨by decide, ?_, by decide⟩
  intro hc
  exact hc (Or.inr (Or.inl (by norm_num)))

unseal Rat.mul Rat.inv Rat.add Rat.sub in
/-- C6 counterexample: on `c6Data` the second glyph's computed position
(3/4, 1/2) and cell (0,0) are within one unit of the first glyph's placed
position (0, 1/2) and cell (0,0) on both axes, yet the interpreter does not
nudge it one column right — the code's nudge only fires strictly within half
a unit. -/
theorem glyph_nudge_cex :
    (draw_frame u2dId c6Data scr20).2 =
      [DrawEvent.glyph c6G1, DrawEvent.glyph c6G2] ∧
    iabs (c6G2.cell.1 - c6G1.cell.1) ≤ 1 ∧
    iabs (c6G2.cell.2 - c6G1.cell.2) ≤ 1 ∧
    |c6G2.rawX - c6G1.x| ≤ 1 ∧ |c6G2.rawY - c6G1.y| ≤ 1 ∧
    c6G2.x ≠ c6G1.x + 1 ∧ c6G2.cell ≠ (c6G1.cell.1 + 1, c6G1.cell.2) := by
  decide

/-- C6 (amended): whenever a glyph primitive's computed position (vertex
average with the +0.5 row bias) is strictly within half a unit of the
previous glyph's recorded position on both axes, the glyph is placed at the
cell one column to the right of the previous glyph's position instead of at
its computed cell. -/
theorem glyph_nudge_half_unit (utf2df : List Char → List Char)
    (vtx : List ImDrawVert) (clip : ImVec4) (i0 i1 i2 j0 j1 j2 : Nat)
    (lastX lastY : Rat) (scr : ScreenState)
    (hy : |((vAt vtx i0).pos.y + (vAt vtx i1).pos.y + (vAt vtx i2).pos.y +
        (vAt vtx j0).pos.y + (vAt vtx j1).pos.y + (vAt vtx j2).pos.y) / 6
        + 1/2 - lastY| < 1/2)
    (hx : |((vAt vtx i0).pos.x + (vAt vtx i1).pos.x + (vAt vtx i2).pos.x +
        (vAt vtx j0).pos.x + (vAt vtx j1).pos.x + (vAt vtx j2).pos.x) / 6
        - lastX| < 1/2) :
    (glyphStep utf2df vtx clip i0 i1 i2 j0 j1 j2 lastX lastY scr).1.x =
      lastX + 1 ∧
    (glyphStep utf2df vtx clip i0 i1 i2 j0 j1 j2 lastX lastY scr).1.y =
      lastY ∧
    (glyphStep utf2df vtx clip i0 i1 i2 j0 j1 j2 lastX lastY scr).1.cell =
      ((lastX + 1).floor, lastY.floor) := by
  have hxy : glyphXY lastX lastY
      (((vAt vtx i0).pos.x + (vAt vtx i1).pos.x + (vAt vtx i2).pos.x +
        (vAt vtx j0).pos.x + (vAt vtx j1).pos.x + (vAt vtx j2).pos.x) / 6)
      (((vAt vtx i0).pos.y + (vAt vtx i1).pos.y + (vAt vtx i2).pos.y +
        (vAt vtx j0).pos.y + (vAt vtx j1).pos.y + (vAt vtx j2).pos.y) / 6
        + 1/2) = (lastX + 1, lastY) := by
    unfold glyphXY
    exact if_pos ⟨hy, hx⟩
  refine ⟨?_, ?_, ?_⟩ <;>
  · simp only [glyphStep, hxy]
    split <;> rfl

unseal Rat.mul Rat.inv Rat.add Rat.sub in
/-- Witness for C6 (amended) with the previous glyph at (1/4, 1/4) and a
computed position (0, 1/2) a quarter unit away on each axis. -/
theorem glyph_nudge_half_unit_witness :
    (glyphStep u2dId c6Verts ⟨0, 0, 20, 20⟩ 0 1 2 3 4 5 (1/4) (1/4)
        scr20).1.x = 1/4 + 1 ∧
    (glyphStep u2dId c6Verts ⟨0, 0, 20, 20⟩ 0 1 2 3 4 5 (1/4) (1/4)
        scr20).1.y = 1/4 ∧
    (glyphStep u2dId c6Verts ⟨0, 0, 20, 20⟩ 0 1 2 3 4 5 (1/4) (1/4)
        scr20).1.cell = (((1 : Rat)/4 + 1).floor, ((1 : Rat)/4).floor) :=
  glyph_nudge_half_unit u2dId c6Verts ⟨0, 0, 20, 20⟩ 0 1 2 3 4 5 (1/4) (1/4)
    scr20 (by decide) (by decide)

/-- C7: the glyph painter reads the target cell's current colours; when the
host conversion yields exactly one unit it paints that unit with the new
foreground and the cell's pre-existing background, and otherwise paints a
literal question mark the same way — in both cases exactly one write is
appended and no failure is surfaced. -/
theorem glyph_decode_fallback (utf2df : List Char → List Char)
    (scr : ScreenState) (xx yy : Int) (payload : List Char) (col : Nat) :
    ((utf2df payload).length = 1 →
      (paintGlyph utf2df scr xx yy payload col).writes =
        ((xx, yy), ⟨(utf2df payload).headD '?',
          (colorConvertU32ToFloat4 col).x, (readTile scr xx yy).bg⟩) ::
          scr.writes) ∧
    ((utf2df payload).length ≠ 1 →
      (paintGlyph utf2df scr xx yy payload col).writes =
        ((xx, yy), ⟨'?', (colorConvertU32ToFloat4 col).x,
          (readTile scr xx yy).bg⟩) :: scr.writes) := by
  constructor <;> intro h <;> simp [paintGlyph, paintTile, h]

unseal Rat.mul Rat.inv Rat.add Rat.sub in
/-- Witness for C7: a one-unit conversion paints the decoded glyph, an
empty conversion paints a question mark, both on background 0. -/
theorem glyph_decode_fallback_witness :
    (paintGlyph u2dId scr20 0 0 ['a'] 255).writes =
      [((0, 0), ⟨'a', 1, 0⟩)] ∧
    (paintGlyph (fun _ => []) scr20 0 0 ['a'] 255).writes =
      [((0, 0), ⟨'?', 1, 0⟩)] := by
  constructor
  · rw [(glyph_decode_fallback u2dId scr20 0 0 ['a'] 255).1 (by decide)]
    decide
  · rw [(glyph_decode_fallback (fun _ => []) scr20 0 0 ['a'] 255).2
      (by decide)]
    decide

lemma foldl_push_skip (sel : List String) :
    ∀ (l acc : List String),
      l.foldl (fun acc w => if w ∈ sel then acc else acc ++ [w]) acc =
        acc ++ l.filter (fun w => decide (w ∉ sel)) := by
  intro l
  induction l with
  | nil => intro acc; simp
  | cons a t ih =>
      intro acc
      by_cases h : a ∈ sel <;>
        simp [List.foldl_cons, List.filter_cons, h, ih]

lemma foldl_push_all :
    ∀ (l acc : List String),
      l.foldl (fun acc w => acc ++ [w]) acc = acc ++ l := by
  intro l
  induction l with
  | nil => intro acc; simp
  | cons a t ih => intro acc; simp [List.foldl_cons, ih]

/-- C5: the splice keeps every unclaimed window in its prior relative order
(the filtered original list) and appends the claimed windows, in their newly
sorted order, at the back of each list — the paint-nearest/focus-nearest
front — for both the display-order and the focus-order list; in particular
[A,B,C,D] with claimed subset sorted to [D,B] yields [A,C,D,B]. -/
theorem rearrange_splice_stability :
    (∀ ws fs dord ford : List String,
      imgui_rearrange_internals ws fs dord ford =
        (ws.filter (fun w => decide (w ∉ dord)) ++ dord,
         fs.filter (fun w => decide (w ∉ ford)) ++ ford)) ∧
    imgui_rearrange_internals ["A", "B", "C", "D"] ["A", "B", "C", "D"]
        ["D", "B"] ["D", "B"] =
      (["A", "C", "D", "B"], ["A", "C", "D", "B"]) := by
  constructor
  · intro ws fs dord ford
    unfold imgui_rearrange_internals
    rw [foldl_push_skip dord ws [], foldl_push_skip ford fs [],
      foldl_push_all dord _, foldl_push_all ford _]
    simp
  · decide

/-- C9: `activate` makes the session's own context current and remembers the
previously-current context; the following `deactivate` restores exactly the
context that was current before `activate`. -/
theorem activate_deactivate_roundtrip (current : Option Nat)
    (st : UiCtxState) :
    (activate current st).1 = st.ctx ∧
    (deactivate (activate current st).1 (activate current st).2).1 =
      current :=
  ⟨rfl, rfl⟩

/-- C10: `suppress_next_mouse_feed_upwards` is the same function as
`suppress_next_keyboard_feed_upwards` — it sets the keyboard-passthrough
suppression flag and no mouse-specific flag — and after either call the next
`on_feed_end` returns `false` even when `feed_upwards` had requested
propagation, with both flags cleared by that call. -/
theorem mouse_suppress_shares_keyboard_flag :
    suppress_next_mouse_feed_upwards = suppress_next_keyboard_feed_upwards ∧
    (∀ (st : FeedState) (keys : Option (List IKey)),
      (on_feed_end keys
        (suppress_next_mouse_feed_upwards (feed_upwards st))).1 = false ∧
      (on_feed_end keys
        (feed_upwards (suppress_next_mouse_feed_upwards st))).1 = false ∧
      (on_feed_end keys
          (suppress_next_mouse_feed_upwards
            (feed_upwards st))).2.suppress_next_keyboard_passthrough =
        false ∧
      (on_feed_end keys
          (suppress_next_mouse_feed_upwards
            (feed_upwards st))).2.should_pass_keyboard_up = false) := by
  refine ⟨rfl, fun st keys => ?_⟩
  cases keys <;> exact ⟨rfl, rfl, rfl, rfl⟩

end ImTuiModel
